import Mathlib

/-!
Verification development for the nano-banana-pro repository: a thin
client layer over a remote multimodal generation service. The core
pieces embedded here are the response-extraction loops from
example_basic.py, example_high_res.py, example_iterative.py and
example_search_grounding.py (the nested candidate/part walks that
locate inline binary image data and write it to a file), and the
multi-turn session manager described by the specification (the chat
handle used by example_iterative.py lives in the external SDK, so the
session manager is modelled from the specification text).
-/

namespace NanoBanana

/-- A content part inside a candidate: a tagged union of a text part,
an inline binary part carrying a mime type and raw bytes (bytes are
modelled as lists of naturals), and any other part kind, which carries
no inline data. In the scripts a part is tested with
`if part.inline_data:`; only inline binary parts pass that test. -/
inductive Part where
  | text (value : String)
  | inlineBinary (mime : String) (data : List Nat)
  | other
deriving DecidableEq, Repr

/-- One alternative completion returned by the service: an ordered
sequence of parts (`candidate.content.parts` in the scripts). -/
structure Candidate where
  parts : List Part
deriving DecidableEq, Repr

/-- A service response: an ordered sequence of candidates
(`response.candidates` in the scripts). -/
structure Response where
  candidates : List Candidate
deriving DecidableEq, Repr

/-- Inner loop of the extraction walk from the scripts: scan a part
list in order and return the mime type and data of the first part
whose inline data is present (`if part.inline_data:` in
generate_basic_image, generate_4k_image, save_image and
generate_with_search). Text parts and other part kinds are skipped. -/
def firstInlineOfParts : List Part → Option (String × List Nat)
  | [] => none
  | Part.inlineBinary m d :: _ => some (m, d)
  | Part.text _ :: ps => firstInlineOfParts ps
  | Part.other :: ps => firstInlineOfParts ps

/-- Outer loop of the extraction walk: iterate candidates from index 0
and return the first inline part found in candidate-then-part order. -/
def firstInlineOfCandidates : List Candidate → Option (String × List Nat)
  | [] => none
  | c :: cs =>
    match firstInlineOfParts c.parts with
    | some md => some md
    | none => firstInlineOfCandidates cs

/-- Single-image extraction: the pure content of the nested
`for candidate in response.candidates: for part in candidate.content.parts:`
loops of the scripts, returning the first inline binary part in
candidate-then-part order, or none when the response holds no image. -/
def extractFirstImage (r : Response) : Option (String × List Nat) :=
  firstInlineOfCandidates r.candidates

/-- A local filesystem modelled as a map from paths to file contents. -/
def FS := String → Option (List Nat)

/-- The write performed by `open(path, "wb")` followed by a single
full-buffer `f.write(data)`: mode "wb" truncates, so any prior content
at the path is replaced by exactly the written bytes. -/
def FS.write (fs : FS) (path : String) (data : List Nat) : FS :=
  fun p => if p = path then some data else fs p

/-- Inner loop of the fused extract-and-save walk from the scripts:
on the first inline part, open the destination for binary writing,
write the data and stop. -/
def savePartsLoop : List Part → String → FS → Option (String × FS)
  | [], _, _ => none
  | Part.inlineBinary _ d :: _, path, fs => some (path, fs.write path d)
  | Part.text _ :: ps, path, fs => savePartsLoop ps path fs
  | Part.other :: ps, path, fs => savePartsLoop ps path fs

/-- Outer loop of the fused extract-and-save walk. -/
def saveCandidatesLoop : List Candidate → String → FS → Option (String × FS)
  | [], _, _ => none
  | c :: cs, path, fs =>
    match savePartsLoop c.parts path fs with
    | some res => some res
    | none => saveCandidatesLoop cs path fs

/-- The save portion of generate_basic_image (and identically of
generate_4k_image and generate_with_search): walk the response, write
the first inline part to the output path and return that path, or
return none (the printed failure case) leaving the filesystem
untouched. -/
def generate_basic_image_save (r : Response) (path : String) (fs : FS) :
    Option String × FS :=
  match saveCandidatesLoop r.candidates path fs with
  | some (p, fs1) => (some p, fs1)
  | none => (none, fs)

/-- save_image from example_iterative.py: same walk, returning true
on a successful write and false when no inline part exists. -/
def save_image (r : Response) (path : String) (fs : FS) : Bool × FS :=
  match saveCandidatesLoop r.candidates path fs with
  | some (_, fs1) => (true, fs1)
  | none => (false, fs)

/-- The image payload of a part, when it is an inline binary part. -/
def imageOf : Part → Option (String × List Nat)
  | Part.inlineBinary m d => some (m, d)
  | _ => none

/-- The text payload of a part, when it is a text part. -/
def textOf : Part → Option String
  | Part.text s => some s
  | _ => none

/-- Decidable test for a text part. -/
def isTextPart : Part → Bool
  | Part.text _ => true
  | _ => false

/-- All parts of a candidate list, flattened in candidate-then-part
order. -/
def allParts : List Candidate → List Part
  | [] => []
  | c :: cs => c.parts ++ allParts cs

/-- The ordered sequence of all inline binary payloads of a response in
candidate-then-part order, written as a flatten-and-filter. -/
def inlineParts (r : Response) : List (String × List Nat) :=
  (allParts r.candidates).filterMap imageOf

/-- Modelled from the spec: the multi-image extraction variant is not
present in the repository sources (the scripts stop at the first
image); the spec says multi-image callers collect every InlineBinary
part into an ordered sequence during the same candidate-then-part
walk. -/
def allImagesOfParts : List Part → List (String × List Nat)
  | [] => []
  | Part.inlineBinary m d :: ps => (m, d) :: allImagesOfParts ps
  | Part.text _ :: ps => allImagesOfParts ps
  | Part.other :: ps => allImagesOfParts ps

/-- Modelled from the spec: outer loop of multi-image extraction,
collecting across candidates in order. -/
def allImagesOfCandidates : List Candidate → List (String × List Nat)
  | [] => []
  | c :: cs => allImagesOfParts c.parts ++ allImagesOfCandidates cs

/-- Modelled from the spec: multi-image extraction over a response. -/
def allImages (r : Response) : List (String × List Nat) :=
  allImagesOfCandidates r.candidates

/-- Modelled from the spec: the aggregated text accessor
(`response.text` in the scripts) is SDK code not present in the
repository sources; the spec says the first non-empty Text part across
candidates (if any) is exposed as aggregated text, and absence of text
is not an error. Inner loop over a part list. -/
def firstTextOfParts : List Part → Option String
  | [] => none
  | Part.text s :: ps => if s = "" then firstTextOfParts ps else some s
  | Part.inlineBinary _ _ :: ps => firstTextOfParts ps
  | Part.other :: ps => firstTextOfParts ps

/-- Modelled from the spec: outer loop of the aggregated-text scan. -/
def firstTextOfCandidates : List Candidate → Option String
  | [] => none
  | c :: cs =>
    match firstTextOfParts c.parts with
    | some s => some s
    | none => firstTextOfCandidates cs

/-- Modelled from the spec: aggregated text of a response. -/
def aggregated_text (r : Response) : Option String :=
  firstTextOfCandidates r.candidates

/-- The attribution of a turn: caller or service. -/
inductive Role where
  | user
  | model
deriving DecidableEq, Repr

/-- One exchange unit of a conversation: a role and an ordered part
sequence, immutable once appended. -/
structure Turn where
  role : Role
  content : List Part
deriving DecidableEq, Repr

/-- Generation configuration: requested modalities, optional aspect
ratio and image size, enabled tools; supplied by the caller and
immutable per session. -/
structure GenerationConfig where
  textModality : Bool
  imageModality : Bool
  aspectRatio : Option String
  imageSize : Option String
  tools : List String
deriving DecidableEq, Repr

/-- The error taxonomy relevant to session construction and turns:
missing required configuration at construction, or a failed call to
the generation service. -/
inductive CoreError where
  | configurationError
  | transportError
deriving DecidableEq, Repr

/-- A session: an exclusively owned, append-only conversation history
plus its immutable configuration. -/
structure Session where
  history : List Turn
  config : GenerationConfig
deriving DecidableEq, Repr

/-- Modelled from the spec: session construction. The chat handle of
example_iterative.py lives in the external SDK; what the scripts do
contain is the credential check (`api_key = os.getenv(...)` followed
by `if not api_key: raise`), run once at the top of each flow before
any client is built or any request sent. A missing credential is a
`None` result of getenv; an empty string is also falsy in Python and
is treated as absent by the same check. On success the session starts
with an empty history. -/
def createSession (apiKey : Option String) (cfg : GenerationConfig) :
    Except CoreError Session :=
  match apiKey with
  | none => Except.error CoreError.configurationError
  | some k =>
    if k = "" then Except.error CoreError.configurationError
    else Except.ok ⟨[], cfg⟩

/-- The single ordered request a turn submits: the entire accumulated
history followed by the new user prompt as a text part. -/
def requestPayload (s : Session) (prompt : String) : List Turn :=
  s.history ++ [⟨Role.user, [Part.text prompt]⟩]

/-- The parts of the first candidate of a response; empty when the
response has no candidate. Only the first candidate is carried forward
into subsequent-turn context. -/
def firstCandidateParts (r : Response) : List Part :=
  match r.candidates with
  | [] => []
  | c :: _ => c.parts

/-- Modelled from the spec: send_turn of the Session Manager
(`chat.send_message` in example_iterative.py, SDK code not in the
repository sources). The generation service is an external
collaborator, modelled as a function from the ordered request to an
optional response; `none` stands for a transport failure. The user
turn is appended first; on success the model turn carrying the first
candidate's parts is appended and the response returned unmodified;
on transport failure the model turn is not appended and the error is
propagated unchanged. -/
def sendTurn (svc : List Turn → Option Response) (s : Session)
    (prompt : String) : Session × Except CoreError Response :=
  let req := requestPayload s prompt
  match svc req with
  | none => (⟨req, s.config⟩, Except.error CoreError.transportError)
  | some r =>
    (⟨req ++ [⟨Role.model, firstCandidateParts r⟩], s.config⟩, Except.ok r)

/-- Run a sequence of turns in call order, threading the session. -/
def runTurns (svc : List Turn → Option Response) (s : Session) :
    List String → Session
  | [] => s
  | p :: ps => runTurns svc (sendTurn svc s p).1 ps

/-- A generation service that answers every request with the same
response; used to instantiate universally quantified statements. -/
def constSvc (r : Response) : List Turn → Option Response :=
  fun _ => some r

/-- A generation service whose every call fails in transport. -/
def failSvc : List Turn → Option Response :=
  fun _ => none

theorem allImagesOfParts_eq_filterMap (ps : List Part) :
    allImagesOfParts ps = ps.filterMap imageOf := by
  induction ps with
  | nil => rfl
  | cons p ps ih =>
    cases p <;> simp [allImagesOfParts, List.filterMap_cons, imageOf, ih]

theorem allImagesOfCandidates_eq_filterMap (cs : List Candidate) :
    allImagesOfCandidates cs = (allParts cs).filterMap imageOf := by
  induction cs with
  | nil => rfl
  | cons c cs ih =>
    simp [allImagesOfCandidates, allParts, List.filterMap_append, ih,
      allImagesOfParts_eq_filterMap]

theorem firstInlineOfParts_eq_head (ps : List Part) :
    firstInlineOfParts ps = (allImagesOfParts ps).head? := by
  induction ps with
  | nil => rfl
  | cons p ps ih =>
    cases p <;> simp [firstInlineOfParts, allImagesOfParts, ih]

theorem firstInlineOfCandidates_eq_head (cs : List Candidate) :
    firstInlineOfCandidates cs = (allImagesOfCandidates cs).head? := by
  induction cs with
  | nil => rfl
  | cons c cs ih =>
    simp only [firstInlineOfCandidates, allImagesOfCandidates,
      firstInlineOfParts_eq_head, ih]
    cases allImagesOfParts c.parts <;> simp

theorem savePartsLoop_eq (ps : List Part) (path : String) (fs : FS) :
    savePartsLoop ps path fs =
      (firstInlineOfParts ps).map fun md => (path, fs.write path md.2) := by
  induction ps with
  | nil => rfl
  | cons p ps ih =>
    cases p <;> simp [savePartsLoop, firstInlineOfParts, ih]

theorem saveCandidatesLoop_eq (cs : List Candidate) (path : String) (fs : FS) :
    saveCandidatesLoop cs path fs =
      (firstInlineOfCandidates cs).map fun md => (path, fs.write path md.2) := by
  induction cs with
  | nil => rfl
  | cons c cs ih =>
    simp only [saveCandidatesLoop, savePartsLoop_eq, ih, firstInlineOfCandidates]
    cases h : firstInlineOfParts c.parts <;> simp [h]

theorem firstTextOfParts_eq_find (ps : List Part) :
    firstTextOfParts ps =
      (ps.filterMap textOf).find? fun s => !(s == "") := by
  induction ps with
  | nil => rfl
  | cons p ps ih =>
    cases p with
    | text s =>
      by_cases hs : s = ""
      · simp [firstTextOfParts, textOf, List.filterMap_cons, List.find?, hs, ih]
      · have hb : (s == "") = false := by simp [hs]
        simp [firstTextOfParts, textOf, List.filterMap_cons, List.find?, hs, hb, ih]
    | inlineBinary m d =>
      simp [firstTextOfParts, textOf, List.filterMap_cons, ih]
    | other =>
      simp [firstTextOfParts, textOf, List.filterMap_cons, ih]

theorem firstTextOfCandidates_eq_find (cs : List Candidate) :
    firstTextOfCandidates cs =
      ((allParts cs).filterMap textOf).find? fun s => !(s == "") := by
  induction cs with
  | nil => rfl
  | cons c cs ih =>
    simp only [firstTextOfCandidates, allParts, List.filterMap_append,
      firstTextOfParts_eq_find, ih]
    cases h : (c.parts.filterMap textOf).find? fun s => !(s == "") with
    | none =>
      rw [List.find?_append, h]
      rfl
    | some s =>
      rw [List.find?_append, h]
      rfl

theorem allImagesOfParts_eq_nil_of_text (ps : List Part)
    (h : ps.all isTextPart = true) : allImagesOfParts ps = [] := by
  induction ps with
  | nil => rfl
  | cons p ps ih =>
    rw [List.all_cons] at h
    cases p with
    | text s =>
      rw [allImagesOfParts]
      exact ih (by simpa [isTextPart] using h)
    | inlineBinary m d => simp [isTextPart] at h
    | other => simp [isTextPart] at h

theorem allImagesOfCandidates_eq_nil_of_text (cs : List Candidate)
    (h : ∀ c ∈ cs, c.parts.all isTextPart = true) :
    allImagesOfCandidates cs = [] := by
  induction cs with
  | nil => rfl
  | cons c cs ih =>
    rw [allImagesOfCandidates,
      allImagesOfParts_eq_nil_of_text c.parts (h c (by simp)),
      List.nil_append]
    exact ih fun c1 hc1 => h c1 (by simp [hc1])

theorem sendTurn_ok (svc : List Turn → Option Response) (s : Session)
    (p : String) (r : Response)
    (h : svc (requestPayload s p) = some r) :
    sendTurn svc s p =
      (⟨requestPayload s p ++ [⟨Role.model, firstCandidateParts r⟩],
        s.config⟩, Except.ok r) := by
  simp only [sendTurn]
  rw [h]

theorem sendTurn_err (svc : List Turn → Option Response) (s : Session)
    (p : String)
    (h : svc (requestPayload s p) = none) :
    sendTurn svc s p =
      (⟨requestPayload s p, s.config⟩,
        Except.error CoreError.transportError) := by
  simp only [sendTurn]
  rw [h]

/-- A concrete response carrying one text part and one png part; used
to instantiate universally quantified statements. -/
def respPngOk : Response :=
  ⟨[⟨[Part.text "ok", Part.inlineBinary "image/png" [137, 80, 78, 71]]⟩]⟩

/-- A concrete text-only response (a refusal). -/
def respTextOnly : Response :=
  ⟨[⟨[Part.text "refused"]⟩]⟩

/-- A concrete filesystem that already holds a file at out.png, to
exercise overwriting. -/
def presetFS : FS :=
  fun p => if p = "out.png" then some [9, 9, 9] else none

/-- A concrete generation configuration. -/
def cfg0 : GenerationConfig :=
  ⟨true, true, none, none, []⟩

theorem runTurns_length (svc : List Turn → Option Response)
    (hok : ∀ req, (svc req).isSome = true) (ps : List String) (s : Session) :
    (runTurns svc s ps).history.length = s.history.length + 2 * ps.length := by
  induction ps generalizing s with
  | nil => simp [runTurns]
  | cons p ps ih =>
    obtain ⟨r, hr⟩ := Option.isSome_iff_exists.mp (hok (requestPayload s p))
    rw [runTurns, ih, sendTurn_ok svc s p r hr]
    simp [requestPayload]
    omega

/-- C1: For every Response that has at least one candidate and whose
candidates contain exactly one InlineBinary part in total, single-image
extraction returns exactly that part's mime type and bytes,
byte-for-byte, following the first-match policy: the first InlineBinary
part in candidate-then-part order is the one returned. -/
theorem C1_single_image_exact (r : Response) (m : String) (d : List Nat)
    (hc : r.candidates ≠ [])
    (hone : inlineParts r = [(m, d)]) :
    extractFirstImage r = some (m, d) := by
  have h1 : allImagesOfCandidates r.candidates = [(m, d)] := by
    rw [allImagesOfCandidates_eq_filterMap]
    exact hone
  rw [extractFirstImage, firstInlineOfCandidates_eq_head, h1]
  rfl

/-- Witness for C1 at a concrete response holding exactly one inline
binary part. -/
theorem C1_witness :
    respPngOk.candidates ≠ [] ∧
    inlineParts respPngOk = [("image/png", [137, 80, 78, 71])] ∧
    extractFirstImage respPngOk = some ("image/png", [137, 80, 78, 71]) :=
  ⟨by decide, by decide,
    C1_single_image_exact respPngOk "image/png" [137, 80, 78, 71]
      (by decide) (by decide)⟩

/-- C2: For every Response with zero candidates, and for every Response
whose candidates contain only Text parts, extraction returns the
distinct NoImageProduced outcome (here the none variant of the total
Option-valued extractor) as a normal result, not a crash and not an
aborting failure. -/
theorem C2_no_image_produced (r : Response)
    (h : r.candidates = [] ∨ ∀ c ∈ r.candidates, c.parts.all isTextPart = true) :
    extractFirstImage r = none := by
  rw [extractFirstImage, firstInlineOfCandidates_eq_head]
  rcases h with h | h
  · rw [h]
    rfl
  · rw [allImagesOfCandidates_eq_nil_of_text _ h]
    rfl

/-- Witness for C2 at a zero-candidate response and at a text-only
response. -/
theorem C2_witness :
    extractFirstImage ⟨[]⟩ = none ∧
    extractFirstImage respTextOnly = none :=
  ⟨C2_no_image_produced ⟨[]⟩ (Or.inl rfl),
    C2_no_image_produced respTextOnly (Or.inr (by decide))⟩

/-- C5: For every Response, multi-image extraction returns the ordered
sequence of all InlineBinary parts in candidate-then-part order
(candidates from index 0, parts in order within each candidate, here
the flatten-and-filter of the response tree), and single-image
extraction returns exactly the first element of that same sequence
when it is non-empty. -/
theorem C5_multi_single_agreement (r : Response) :
    allImages r = inlineParts r ∧
    extractFirstImage r = (allImages r).head? :=
  ⟨allImagesOfCandidates_eq_filterMap r.candidates,
    firstInlineOfCandidates_eq_head r.candidates⟩

/-- C6: For every Response, aggregated text equals the first non-empty
Text part across candidates when one exists, and the absence of any
Text part is not an error (the find-based characterization is total
and returns the none variant then); in the scenario of one candidate
with parts Text ok and InlineBinary png, aggregated text is ok. -/
theorem C6_aggregated_text_first_nonempty :
    (∀ r : Response,
      aggregated_text r =
        ((allParts r.candidates).filterMap textOf).find? fun s => !(s == "")) ∧
    aggregated_text respPngOk = some "ok" := by
  refine ⟨fun r => firstTextOfCandidates_eq_find r.candidates, ?_⟩
  rfl

/-- C7: Extraction is total on every well-formed Response tree: a
candidate with zero parts is skipped, a Response with zero candidates
is handled, a part that is neither Text nor InlineBinary is ignored
wherever it occurs, and every input reaches a normal result, an image
or the none variant standing for NoImageProduced. -/
theorem C7_extraction_total :
    (∀ cs : List Candidate,
      firstInlineOfCandidates (⟨[]⟩ :: cs) = firstInlineOfCandidates cs) ∧
    extractFirstImage ⟨[]⟩ = none ∧
    (∀ ps1 ps2 : List Part,
      firstInlineOfParts (ps1 ++ Part.other :: ps2) =
        firstInlineOfParts (ps1 ++ ps2)) ∧
    (∀ r : Response,
      extractFirstImage r = none ∨
        ∃ m d, extractFirstImage r = some (m, d)) := by
  refine ⟨fun cs => rfl, rfl, ?_, ?_⟩
  · intro ps1 ps2
    induction ps1 with
    | nil => rfl
    | cons p ps ih => cases p <;> simp [firstInlineOfParts, ih]
  · intro r
    match h : extractFirstImage r with
    | none => exact Or.inl rfl
    | some (m, d) => exact Or.inr ⟨m, d, rfl⟩

/-- C9: After a successful extract-and-save, the destination file's
content equals exactly the extracted InlineBinary part's bytes, even
if a file already existed at that path: the write truncates and
replaces any prior content in a single full-buffer write, never
appends to it. Stated for the save flow of generate_basic_image and
for save_image over an arbitrary starting filesystem. -/
theorem C9_save_writes_exact_bytes (r : Response) (path : String)
    (fs : FS) (m : String) (d : List Nat)
    (h : extractFirstImage r = some (m, d)) :
    (generate_basic_image_save r path fs).1 = some path ∧
    (generate_basic_image_save r path fs).2 path = some d ∧
    (save_image r path fs).1 = true ∧
    (save_image r path fs).2 path = some d := by
  have hs := saveCandidatesLoop_eq r.candidates path fs
  rw [extractFirstImage] at h
  rw [h] at hs
  refine ⟨?_, ?_, ?_, ?_⟩ <;>
    simp [generate_basic_image_save, save_image, hs, FS.write]

/-- Witness for C9 at a concrete response and a filesystem that
already holds different bytes at the destination path. -/
theorem C9_witness :
    extractFirstImage respPngOk = some ("image/png", [137, 80, 78, 71]) ∧
    ((generate_basic_image_save respPngOk "out.png" presetFS).1 = some "out.png" ∧
      (generate_basic_image_save respPngOk "out.png" presetFS).2 "out.png" =
        some [137, 80, 78, 71] ∧
      (save_image respPngOk "out.png" presetFS).1 = true ∧
      (save_image respPngOk "out.png" presetFS).2 "out.png" =
        some [137, 80, 78, 71]) :=
  ⟨by decide,
    C9_save_writes_exact_bytes respPngOk "out.png" presetFS "image/png"
      [137, 80, 78, 71] (by decide)⟩

/-- C10: When a Response contains no InlineBinary part, the combined
extract-and-save operation performs no filesystem write at all (the
filesystem value is returned unchanged, so no file is created or
modified) and returns its distinguished failure value: none for the
path-returning flow and false for save_image. -/
theorem C10_no_write_without_image (r : Response) (path : String)
    (fs : FS)
    (h : extractFirstImage r = none) :
    generate_basic_image_save r path fs = (none, fs) ∧
    save_image r path fs = (false, fs) := by
  have hs := saveCandidatesLoop_eq r.candidates path fs
  rw [extractFirstImage] at h
  rw [h] at hs
  constructor <;> simp [generate_basic_image_save, save_image, hs]

/-- Witness for C10 at a concrete text-only response over a concrete
filesystem. -/
theorem C10_witness :
    extractFirstImage respTextOnly = none ∧
    (generate_basic_image_save respTextOnly "out.png" presetFS = (none, presetFS) ∧
      save_image respTextOnly "out.png" presetFS = (false, presetFS)) :=
  ⟨by decide,
    C10_no_write_without_image respTextOnly "out.png" presetFS (by decide)⟩

/-- C3: send_turn submits the entire accumulated history plus the new
prompt to the Generation Service as a single ordered request; after
two prior successful turns, the request payload sent on the third
send_turn call contains all parts, user prompts and model responses,
from turns 1 and 2, followed by the new prompt. -/
theorem C3_full_history_submitted
    (svc : List Turn → Option Response) (cfg : GenerationConfig)
    (p1 p2 p3 : String) (r1 r2 : Response)
    (h1 : svc (requestPayload (Session.mk [] cfg) p1) = some r1)
    (h2 : svc (requestPayload (sendTurn svc (Session.mk [] cfg) p1).1 p2) =
      some r2) :
    (∀ s : Session, ∀ q : String,
      requestPayload s q = s.history ++ [⟨Role.user, [Part.text q]⟩]) ∧
    (∀ s : Session, ∀ q : String, ∀ r : Response,
      svc (requestPayload s q) = some r →
        (sendTurn svc s q).2 = Except.ok r) ∧
    requestPayload
        (sendTurn svc (sendTurn svc (Session.mk [] cfg) p1).1 p2).1 p3 =
      [⟨Role.user, [Part.text p1]⟩, ⟨Role.model, firstCandidateParts r1⟩,
        ⟨Role.user, [Part.text p2]⟩, ⟨Role.model, firstCandidateParts r2⟩,
        ⟨Role.user, [Part.text p3]⟩] := by
  refine ⟨fun s q => rfl,
    fun s q r h => by rw [sendTurn_ok svc s q r h], ?_⟩
  have e1 := sendTurn_ok svc (Session.mk [] cfg) p1 r1 h1
  rw [e1] at h2
  rw [e1, sendTurn_ok svc _ p2 r2 h2]
  simp [requestPayload]

/-- Witness for C3 with a constant generation service and three
concrete prompts. -/
theorem C3_witness :
    (∀ s : Session, ∀ q : String,
      requestPayload s q = s.history ++ [⟨Role.user, [Part.text q]⟩]) ∧
    (∀ s : Session, ∀ q : String, ∀ r : Response,
      constSvc respPngOk (requestPayload s q) = some r →
        (sendTurn (constSvc respPngOk) s q).2 = Except.ok r) ∧
    requestPayload
        (sendTurn (constSvc respPngOk)
          (sendTurn (constSvc respPngOk) (Session.mk [] cfg0) "a").1 "b").1 "c" =
      [⟨Role.user, [Part.text "a"]⟩,
        ⟨Role.model, firstCandidateParts respPngOk⟩,
        ⟨Role.user, [Part.text "b"]⟩,
        ⟨Role.model, firstCandidateParts respPngOk⟩,
        ⟨Role.user, [Part.text "c"]⟩] :=
  C3_full_history_submitted (constSvc respPngOk) cfg0 "a" "b" "c"
    respPngOk respPngOk rfl rfl

/-- C4: After k successful send_turn calls from a fresh session the
history length equals 2k; each successful call appends exactly one
user Turn then one model Turn carrying only the first candidate's
parts; a transport failure on call k+1 leaves the history at length
2k+1, the user Turn appended and the model Turn not; and no Turn is
ever removed or edited: every call extends the prior history by a
suffix. -/
theorem C4_history_length_invariant
    (svcA svcB : List Turn → Option Response) (cfg : GenerationConfig)
    (ps : List String) (q : String)
    (hA : ∀ req, (svcA req).isSome = true)
    (hB : svcB (requestPayload (runTurns svcA (Session.mk [] cfg) ps) q) =
      none) :
    (runTurns svcA (Session.mk [] cfg) ps).history.length = 2 * ps.length ∧
    (sendTurn svcB (runTurns svcA (Session.mk [] cfg) ps) q).1.history.length =
      2 * ps.length + 1 ∧
    (∀ svc : List Turn → Option Response, ∀ s : Session, ∀ p : String,
      ∀ r : Response,
      svc (requestPayload s p) = some r →
        (sendTurn svc s p).1.history =
          s.history ++ [⟨Role.user, [Part.text p]⟩,
            ⟨Role.model, firstCandidateParts r⟩]) ∧
    (∀ svc : List Turn → Option Response, ∀ s : Session, ∀ p : String,
      ∃ t : List Turn, (sendTurn svc s p).1.history = s.history ++ t) := by
  have hk : (runTurns svcA (Session.mk [] cfg) ps).history.length =
      2 * ps.length := by
    have := runTurns_length svcA hA ps (Session.mk [] cfg)
    simpa using this
  refine ⟨hk, ?_, ?_, ?_⟩
  · rw [sendTurn_err svcB _ q hB]
    simp [requestPayload, hk]
  · intro svc s p r h
    rw [sendTurn_ok svc s p r h]
    simp [requestPayload]
  · intro svc s p
    cases h : svc (requestPayload s p) with
    | none =>
      exact ⟨[⟨Role.user, [Part.text p]⟩], by
        rw [sendTurn_err svc s p h]; simp [requestPayload]⟩
    | some r =>
      exact ⟨[⟨Role.user, [Part.text p]⟩, ⟨Role.model, firstCandidateParts r⟩],
        by rw [sendTurn_ok svc s p r h]; simp [requestPayload]⟩

/-- Witness for C4 with a constant succeeding service for two turns
and a failing service on the third. -/
theorem C4_witness :
    (runTurns (constSvc respPngOk) (Session.mk [] cfg0) ["a", "b"]).history.length =
      2 * (["a", "b"] : List String).length ∧
    (sendTurn failSvc
        (runTurns (constSvc respPngOk) (Session.mk [] cfg0) ["a", "b"]) "c").1.history.length =
      2 * (["a", "b"] : List String).length + 1 ∧
    (∀ svc : List Turn → Option Response, ∀ s : Session, ∀ p : String,
      ∀ r : Response,
      svc (requestPayload s p) = some r →
        (sendTurn svc s p).1.history =
          s.history ++ [⟨Role.user, [Part.text p]⟩,
            ⟨Role.model, firstCandidateParts r⟩]) ∧
    (∀ svc : List Turn → Option Response, ∀ s : Session, ∀ p : String,
      ∃ t : List Turn, (sendTurn svc s p).1.history = s.history ++ t) :=
  C4_history_length_invariant (constSvc respPngOk) failSvc cfg0 ["a", "b"] "c"
    (fun _ => rfl) rfl

/-- C8: Session construction fails with ConfigurationError exactly when
the required credential is absent (the check of the scripts treats an
unset variable and an empty string alike, per Python falsiness), the
check happens once at create before any request is built or sent, and
never per turn: a turn can only fail in transport; when the credential
is present, create succeeds with an empty history. -/
theorem C8_credential_checked_at_create :
    (∀ cfg : GenerationConfig,
      createSession none cfg = Except.error CoreError.configurationError) ∧
    (∀ cfg : GenerationConfig,
      createSession (some "") cfg = Except.error CoreError.configurationError) ∧
    (∀ k : String, ∀ cfg : GenerationConfig, ¬ k = "" →
      createSession (some k) cfg = Except.ok (Session.mk [] cfg)) ∧
    (∀ svc : List Turn → Option Response, ∀ s : Session, ∀ p : String,
      ¬ (sendTurn svc s p).2 = Except.error CoreError.configurationError) := by
  refine ⟨fun cfg => rfl, fun cfg => by simp [createSession],
    fun k cfg hk => by simp [createSession, hk], ?_⟩
  intro svc s p
  cases h : svc (requestPayload s p) with
  | none => rw [sendTurn_err svc s p h]; simp
  | some r => rw [sendTurn_ok svc s p r h]; simp

/-- Witness for C8 at concrete credentials and a concrete turn. -/
theorem C8_witness :
    createSession none cfg0 = Except.error CoreError.configurationError ∧
    createSession (some "") cfg0 = Except.error CoreError.configurationError ∧
    createSession (some "key") cfg0 = Except.ok (Session.mk [] cfg0) ∧
    ¬ (sendTurn failSvc (Session.mk [] cfg0) "a").2 =
      Except.error CoreError.configurationError :=
  ⟨C8_credential_checked_at_create.1 cfg0,
    C8_credential_checked_at_create.2.1 cfg0,
    C8_credential_checked_at_create.2.2.1 "key" cfg0 (by decide),
    C8_credential_checked_at_create.2.2.2 failSvc (Session.mk [] cfg0) "a"⟩

end NanoBanana
